import Mathlib

/-!
Verification of the terminalsync server core against its specification.

The definitions below are a shallow embedding of the TypeScript source:

* `ManagedSession` (src/session/managed-session.ts): the PTY-backed session
  with its output ring buffer, OSC title scanning, resize/write/kill
  operations and exit tracking.  PTY side effects and emitted signals are
  reified as explicit `SessionEffect` values returned by each operation.
* `ManagedSessionStore` (src/session/managed-session-store.ts): an
  association list of sessions with the `active`/`idle` signal discipline.
* `ClientSession` (src/session/client-session.ts): the per-connection
  BROWSING/ATTACHED state machine; outbound frames are reified as
  `ServerOut` values.
* the WebSocket gateway (src/server/ws-server.ts): token extraction,
  the constant-time token comparison, and the static-file path guard.

JS strings are modelled as `List Char`; byte lengths use the UTF-8 size of
each character, matching `Buffer.byteLength`.  JS numbers appearing as
terminal dimensions are modelled as `Int` (the code compares them against
`0` with `<=`).
-/

set_option autoImplicit false

namespace TerminalSync

/-- JS strings, modelled as lists of unicode scalar values. -/
abbrev Str := List Char

/-- `Buffer.byteLength(s)`: the UTF-8 byte length of a JS string. -/
def byteLength (s : Str) : Nat :=
  s.foldl (fun n c => n + c.utf8Size) 0

/-- Total byte length of the chunks of a ring buffer. -/
def sumBytes : List Str → Nat
  | [] => 0
  | c :: rest => byteLength c + sumBytes rest

/-- Ring-buffer portion of a `ManagedSession`'s state: the chunk list,
the cached byte total, and the configured cap (`maxBufferBytes`). -/
structure RingState where
  ringBuffer : List Str
  ringBufferBytes : Nat
  maxBufferBytes : Nat
  deriving DecidableEq

/-- The fresh ring buffer of a newly constructed session. -/
def initRing (maxB : Nat) : RingState :=
  { ringBuffer := [], ringBufferBytes := 0, maxBufferBytes := maxB }

/-- The eviction loop of `pushToBuffer`:
`while (ringBufferBytes > maxBufferBytes && ringBuffer.length > 1)`
drop the head chunk and subtract its byte length. -/
def evictLoop : List Str → Nat → Nat → List Str × Nat
  | [], bytes, _ => ([], bytes)
  | c :: rest, bytes, maxB =>
    if bytes > maxB ∧ rest ≠ [] then
      evictLoop rest (bytes - byteLength c) maxB
    else
      (c :: rest, bytes)

/-- `ManagedSession.pushToBuffer(data)`: append the chunk, add its byte
length, then run the eviction loop. -/
def pushToBuffer (st : RingState) (data : Str) : RingState :=
  let ring := st.ringBuffer ++ [data]
  let bytes := st.ringBufferBytes + byteLength data
  let res := evictLoop ring bytes st.maxBufferBytes
  { st with ringBuffer := res.1, ringBufferBytes := res.2 }

/-- `ManagedSession.getBufferedOutput()`: the concatenation of the ring. -/
def getBufferedOutput (st : RingState) : Str :=
  st.ringBuffer.flatten

/-- The ring-buffer invariant maintained between pushes: the cached byte
count is exact, and the total is within the cap unless the ring holds a
single oversized chunk. -/
def RingInv (st : RingState) : Prop :=
  st.ringBufferBytes = sumBytes st.ringBuffer ∧
    (sumBytes st.ringBuffer ≤ st.maxBufferBytes ∨ st.ringBuffer.length = 1)

/-- Observable effects of a `ManagedSession` operation: calls into the
underlying PTY process (`ptyWrite`/`ptyResize`/`ptyKill`) and signals
emitted to subscribers (`emitResize`). -/
inductive SessionEffect where
  | ptyWrite (data : Str)
  | ptyResize (cols rows : Int)
  | ptyKill
  | emitResize (cols rows : Int)
  deriving DecidableEq

/-- The mutable scalar state of a `ManagedSession`: current dimensions,
the exited flag set by the PTY `onExit` handler, and the recorded exit
code. -/
structure SessionState where
  cols : Int
  rows : Int
  exited : Bool
  exitCode : Int
  deriving DecidableEq

namespace ManagedSession

/-- `write(data)`: forward to the PTY master unless the child exited. -/
def write (st : SessionState) (data : Str) : SessionState × List SessionEffect :=
  if st.exited then (st, []) else (st, [SessionEffect.ptyWrite data])

/-- `resize(cols, rows)`: return early on a non-positive or unchanged
size; otherwise update the stored dimensions, push the resize to the PTY
only while the child is alive, and emit the `resize` signal. -/
def resize (st : SessionState) (cols rows : Int) :
    SessionState × List SessionEffect :=
  if cols ≤ 0 ∨ rows ≤ 0 then (st, [])
  else if cols = st.cols ∧ rows = st.rows then (st, [])
  else
    let st' := { st with cols := cols, rows := rows }
    if st.exited then (st', [SessionEffect.emitResize cols rows])
    else (st', [SessionEffect.ptyResize cols rows, SessionEffect.emitResize cols rows])

/-- `hasExited()`. -/
def hasExited (st : SessionState) : Bool :=
  st.exited

/-- `getStatus()`. -/
def getStatus (st : SessionState) : String :=
  if st.exited then "exited" else "running"

/-- `kill()`: best-effort terminate; the `try`/`catch` swallows errors,
and the exited flag is only set later by the `onExit` handler. -/
def kill (st : SessionState) : SessionState × List SessionEffect :=
  if st.exited then (st, []) else (st, [SessionEffect.ptyKill])

/-- The `onExit` handler of the PTY: record the exit. -/
def onExitUpdate (st : SessionState) (code : Int) : SessionState :=
  { st with exited := true, exitCode := code }

end ManagedSession

/-- Whether a list of effects contains an emitted `resize` signal. -/
def emitsResizeSignal (effs : List SessionEffect) : Bool :=
  effs.any fun e =>
    match e with
    | SessionEffect.emitResize _ _ => true
    | _ => false

/-- A concrete session that has exited at size 80×24. -/
def exSession₀ : SessionState :=
  { cols := 80, rows := 24, exited := true, exitCode := 0 }

/-- Body scan of the OSC title regex
`\x1b\](?:0|2);([^\x07\x1b]*?)(?:\x07|\x1b\\)` after the `;`: consume
characters that are neither BEL nor ESC; stop successfully at a BEL or at
an ESC that is followed by a backslash, and fail otherwise (the lazy body
class cannot consume BEL or ESC). -/
def scanTitleBody : Str → Str → Option Str
  | _, [] => none
  | acc, c :: rest =>
    if c = '\x07' then some acc.reverse
    else if c = '\x1b' then
      match rest with
      | '\\' :: _ => some acc.reverse
      | _ => none
    else scanTitleBody (c :: acc) rest

/-- Attempt of the title regex anchored at the start of the string:
`ESC ] (0|2) ;` followed by the body scan. -/
def matchTitleAt : Str → Option Str
  | '\x1b' :: ']' :: c :: ';' :: rest =>
    if c = '0' ∨ c = '2' then scanTitleBody [] rest else none
  | _ => none

/-- `ManagedSession.extractTitle(data)`: the leftmost match of the OSC
title regex in one data chunk, or `none`. -/
def extractTitle : Str → Option Str
  | [] => none
  | c :: rest =>
    match matchTitleAt (c :: rest) with
    | some t => some t
    | none => extractTitle rest

/-- The title portion of the `onData` handler: on a non-empty extracted
title that differs from the current name, update the name and emit a
`title` signal (`if (title && title !== this._name)`). Returns the new
name and whether `title` was emitted. -/
def applyTitle (name : Str) (chunk : Str) : Str × Bool :=
  match extractTitle chunk with
  | some t => if t ≠ [] ∧ t ≠ name then (t, true) else (name, false)
  | none => (name, false)

/-- A complete BEL-terminated OSC title sequence. -/
def oscTitle (code : Char) (t : Str) : Str :=
  '\x1b' :: ']' :: code :: ';' :: (t ++ ['\x07'])

/-- A string usable as the body of an OSC title sequence: it contains
neither BEL nor ESC. -/
def titleBodyOk (t : Str) : Prop :=
  ∀ c ∈ t, c ≠ '\x07' ∧ c ≠ '\x1b'

instance (t : Str) : Decidable (titleBodyOk t) := by
  unfold titleBodyOk
  infer_instance

/-- Events emitted on the `ManagedSessionStore`'s emitter. The
`session_removed` constructor exists in the wire protocol
(`SessionRemovedResponse`) and is listened for by the session manager;
whether the store ever emits it is settled by the theorems below. -/
inductive StoreEvent where
  | active
  | idle
  | session_removed (id : Str)
  deriving DecidableEq

/-- The store's `Map<string, ManagedSession>`, as an association list in
insertion order. -/
structure StoreState where
  sessions : List (Str × SessionState)
  deriving DecidableEq

/-- `Map.get`: the entry with the given key. -/
def lookupSession (id : Str) : List (Str × SessionState) → Option SessionState
  | [] => none
  | p :: rest => if p.1 = id then some p.2 else lookupSession id rest

/-- `Map.set`: replace an existing key in place, else append. -/
def mapSet (id : Str) (s : SessionState) :
    List (Str × SessionState) → List (Str × SessionState)
  | [] => [(id, s)]
  | p :: rest => if p.1 = id then (id, s) :: rest else p :: mapSet id s rest

/-- Record a session's exit inside the map (the session object sets its
own `exited` flag in its `onExit` handler). -/
def markExited (id : Str) (code : Int) :
    List (Str × SessionState) → List (Str × SessionState)
  | [] => []
  | p :: rest =>
    if p.1 = id then (p.1, ManagedSession.onExitUpdate p.2 code) :: rest
    else p :: markExited id code rest

/-- `Map.delete`: drop the entry with the given key. -/
def eraseSession (id : Str) :
    List (Str × SessionState) → List (Str × SessionState)
  | [] => []
  | p :: rest => if p.1 = id then rest else p :: eraseSession id rest

/-- `getRunningCount()`: the number of sessions whose `exited` is false. -/
def getRunningCount (st : StoreState) : Nat :=
  (st.sessions.filter fun p => !p.2.exited).length

namespace ManagedSessionStore

/-- `create(opts)`: construct and register the session (the key is a
fresh `crypto.randomUUID()`), hook its `exit` event, and emit `active`
synchronously. -/
def create (st : StoreState) (id : Str) (s : SessionState) :
    StoreState × List StoreEvent :=
  ({ sessions := mapSet id s st.sessions }, [StoreEvent.active])

/-- Delivery of a session's PTY `exit` event. The store's hook is still
registered exactly when the session is still in the map — `remove` and
`shutdown` call `removeAllListeners` at the moment they delete the entry
— and emits `idle` when `getRunningCount()` reaches 0 after the exit is
recorded. A PTY fires `exit` at most once, so delivery for an entry that
is already exited cannot occur and is modelled as a no-op. -/
def childExit (st : StoreState) (id : Str) (code : Int) :
    StoreState × List StoreEvent :=
  match lookupSession id st.sessions with
  | none => (st, [])
  | some s =>
    if s.exited then (st, [])
    else
      let st' : StoreState := { sessions := markExited id code st.sessions }
      if getRunningCount st' = 0 then (st', [StoreEvent.idle])
      else (st', [])

/-- `remove(id)`: when present, kill the session, drop all of its
listeners and delete it from the map, returning true; otherwise false.
Nothing is emitted. -/
def remove (st : StoreState) (id : Str) :
    StoreState × Bool × List StoreEvent :=
  match lookupSession id st.sessions with
  | none => (st, false, [])
  | some _ => ({ sessions := eraseSession id st.sessions }, true, [])

/-- `shutdown()`: kill every session, drop its listeners and clear the
map. Nothing is emitted. -/
def shutdown (st : StoreState) : StoreState × List StoreEvent :=
  ({ sessions := [] }, [])

end ManagedSessionStore

/-- A concrete running session at 80×24. -/
def runningSession₀ : SessionState :=
  { cols := 80, rows := 24, exited := false, exitCode := 0 }

/-- A concrete store holding the single running session `"a"`. -/
def storeOne : StoreState :=
  { sessions := [(['a'], runningSession₀)] }

/-- `s.startsWith(p)` on JS strings, and the segment-list analogue. -/
def listStartsWith {α : Type} [DecidableEq α] : List α → List α → Bool
  | _, [] => true
  | [], _ :: _ => false
  | a :: as, b :: bs => if a = b then listStartsWith as bs else false

/-- The two states of a `ClientSession`. -/
inductive ClientState where
  | BROWSING
  | ATTACHED
  deriving DecidableEq

/-- The per-connection state: the state-machine state, the attached
managed session (`attachedSession`), and the tmux attachment
(`tmuxPty`/`attachedTarget`, non-null together). -/
structure ClientSt where
  state : ClientState
  attachedSession : Option Str
  attachedTarget : Option Str
  deriving DecidableEq

/-- The wire error codes. -/
inductive ErrCode where
  | PARSE_ERROR
  | SESSION_NOT_FOUND
  | SESSION_EXITED
  | ALREADY_ATTACHED
  | NOT_ATTACHED
  | CREATE_FAILED
  | LIST_ERROR
  | ATTACH_FAILED
  deriving DecidableEq

/-- Reasons carried by a `detached` message. -/
inductive DetachReason where
  | client_request
  | session_exit
  | error
  deriving DecidableEq

/-- Frames and effects the client handler produces: outbound text and
binary WebSocket frames, plus calls into the attached session. -/
inductive ServerOut where
  | binaryFrame (data : Str)
  | errorMsg (seq : Int) (code : ErrCode)
  | attachedMsg (seq : Int) (target : Str) (cols rows : Int)
  | detachedMsg (seq : Int) (reason : DetachReason)
  | sessionList (seq : Int)
  | sessionCreated (seq : Int) (id : Str)
  | ptyInput (target : Str) (data : Str)
  | ptyResizeReq (target : Str) (cols rows : Int)
  deriving DecidableEq

/-- A client-visible snapshot of one stored session: its scalar state and
its buffered output. -/
structure SessionView where
  sess : SessionState
  buffered : Str
  deriving DecidableEq

/-- The collaborators a `ClientSession` dispatch reads: the store
(`store.get`), the result of `captureScrollback` + `spawnAttach` for a
tmux target (`none` models the thrown error), whether
`tmux.listSessions()` succeeds, and the result of `store.create`
(`none` models a spawn error). -/
structure ClientEnv where
  store : Str → Option SessionView
  tmuxAttachRes : Str → Option Str
  tmuxListOk : Bool
  createRes : Option Str

/-- Parsed client → server messages. -/
inductive ClientMessage where
  | list_sessions (seq : Int)
  | create_session (seq : Int) (name : Str) (cols rows : Int)
  | attach (seq : Int) (target : Str) (cols rows : Int)
  | input (seq : Int) (data : Str)
  | resize (seq : Int) (cols rows : Int)
  | detach (seq : Int)
  deriving DecidableEq

/-- An incoming WebSocket text frame: either it fails
`parseClientMessage` or it is a parsed message. -/
inductive Frame where
  | unparseable
  | msg (m : ClientMessage)
  deriving DecidableEq

/-- The `tmux:` id namespace. -/
def tmuxNamespace : Str := ['t', 'm', 'u', 'x', ':']

namespace ClientSession

/-- `handleListSessions`: reply `session_list`, or `LIST_ERROR` when the
tmux adapter throws. -/
def handleListSessions (env : ClientEnv) (cl : ClientSt) (seq : Int) :
    ClientSt × List ServerOut :=
  if env.tmuxListOk then (cl, [ServerOut.sessionList seq])
  else (cl, [ServerOut.errorMsg seq ErrCode.LIST_ERROR])

/-- `handleCreateSession`: reply `session_created`, or `CREATE_FAILED`
when the spawn throws. -/
def handleCreateSession (env : ClientEnv) (cl : ClientSt) (seq : Int) :
    ClientSt × List ServerOut :=
  match env.createRes with
  | some id => (cl, [ServerOut.sessionCreated seq id])
  | none => (cl, [ServerOut.errorMsg seq ErrCode.CREATE_FAILED])

/-- `attachTmux`: capture scrollback and spawn the attach PTY; on
success move to ATTACHED, flush the scrollback as one binary frame and
reply `attached`; on a thrown error reply `ATTACH_FAILED`. -/
def attachTmux (env : ClientEnv) (cl : ClientSt) (seq : Int)
    (tmuxTarget : Str) (cols rows : Int) : ClientSt × List ServerOut :=
  match env.tmuxAttachRes tmuxTarget with
  | none => (cl, [ServerOut.errorMsg seq ErrCode.ATTACH_FAILED])
  | some scrollback =>
    let cl' := { cl with
      attachedTarget := some (tmuxNamespace ++ tmuxTarget),
      state := ClientState.ATTACHED }
    let flush := if scrollback ≠ [] then [ServerOut.binaryFrame scrollback] else []
    (cl', flush ++
      [ServerOut.attachedMsg seq (tmuxNamespace ++ tmuxTarget) cols rows])

/-- `handleAttach`: refuse while ATTACHED; route `tmux:` targets to the
tmux path; otherwise look the target up in the store, refusing unknown
and exited sessions; on success register, flush the buffered output as
one binary frame, subscribe and reply `attached` with the session's
current size. -/
def handleAttach (env : ClientEnv) (cl : ClientSt) (seq : Int)
    (target : Str) (cols rows : Int) : ClientSt × List ServerOut :=
  if cl.state = ClientState.ATTACHED then
    (cl, [ServerOut.errorMsg seq ErrCode.ALREADY_ATTACHED])
  else if listStartsWith target tmuxNamespace then
    attachTmux env cl seq (target.drop 5) cols rows
  else
    match env.store target with
    | none => (cl, [ServerOut.errorMsg seq ErrCode.SESSION_NOT_FOUND])
    | some sv =>
      if sv.sess.exited then
        (cl, [ServerOut.errorMsg seq ErrCode.SESSION_EXITED])
      else
        let cl' := { cl with
          attachedSession := some target,
          state := ClientState.ATTACHED }
        let flush := if sv.buffered ≠ [] then [ServerOut.binaryFrame sv.buffered] else []
        (cl', flush ++
          [ServerOut.attachedMsg seq target sv.sess.cols sv.sess.rows])

/-- `detachFromManaged`: unsubscribe, deregister, clear the reference and
return to BROWSING. -/
def detachFromManaged (cl : ClientSt) : ClientSt :=
  { cl with attachedSession := none, state := ClientState.BROWSING }

/-- `detachFromTmux`: detach gracefully, clear the reference and return
to BROWSING. -/
def detachFromTmux (cl : ClientSt) : ClientSt :=
  { cl with attachedTarget := none, state := ClientState.BROWSING }

/-- `handleInput`: refuse while not ATTACHED, else forward the bytes. -/
def handleInput (cl : ClientSt) (seq : Int) (data : Str) :
    ClientSt × List ServerOut :=
  if cl.state ≠ ClientState.ATTACHED then
    (cl, [ServerOut.errorMsg seq ErrCode.NOT_ATTACHED])
  else
    match cl.attachedSession with
    | some id => (cl, [ServerOut.ptyInput id data])
    | none =>
      match cl.attachedTarget with
      | some t => (cl, [ServerOut.ptyInput t data])
      | none => (cl, [])

/-- `handleResize`: refuse while not ATTACHED, else forward the resize. -/
def handleResize (cl : ClientSt) (seq : Int) (cols rows : Int) :
    ClientSt × List ServerOut :=
  if cl.state ≠ ClientState.ATTACHED then
    (cl, [ServerOut.errorMsg seq ErrCode.NOT_ATTACHED])
  else
    match cl.attachedSession with
    | some id => (cl, [ServerOut.ptyResizeReq id cols rows])
    | none =>
      match cl.attachedTarget with
      | some t => (cl, [ServerOut.ptyResizeReq t cols rows])
      | none => (cl, [])

/-- `handleDetach`: refuse while not ATTACHED, else detach and reply
`detached{client_request}`. -/
def handleDetach (cl : ClientSt) (seq : Int) : ClientSt × List ServerOut :=
  if cl.state ≠ ClientState.ATTACHED then
    (cl, [ServerOut.errorMsg seq ErrCode.NOT_ATTACHED])
  else
    let cl' :=
      match cl.attachedSession with
      | some _ => detachFromManaged cl
      | none =>
        match cl.attachedTarget with
        | some _ => detachFromTmux cl
        | none => cl
    (cl', [ServerOut.detachedMsg seq DetachReason.client_request])

/-- `handleMessage`: dispatch on the message type. -/
def handleMessage (env : ClientEnv) (cl : ClientSt) :
    ClientMessage → ClientSt × List ServerOut
  | ClientMessage.list_sessions seq => handleListSessions env cl seq
  | ClientMessage.create_session seq _ _ _ => handleCreateSession env cl seq
  | ClientMessage.attach seq target cols rows =>
    handleAttach env cl seq target cols rows
  | ClientMessage.input seq data => handleInput cl seq data
  | ClientMessage.resize seq cols rows => handleResize cl seq cols rows
  | ClientMessage.detach seq => handleDetach cl seq

/-- The `message` listener installed by the constructor: a frame that
fails `parseClientMessage` is answered by a `PARSE_ERROR` with `seq = 0`;
a parsed message is dispatched. -/
def handleFrame (env : ClientEnv) (cl : ClientSt) :
    Frame → ClientSt × List ServerOut
  | Frame.unparseable => (cl, [ServerOut.errorMsg 0 ErrCode.PARSE_ERROR])
  | Frame.msg m => handleMessage env cl m

end ClientSession

/-- A browsing client with nothing attached. -/
def browsingClient : ClientSt :=
  { state := ClientState.BROWSING, attachedSession := none,
    attachedTarget := none }

/-- A client attached to the managed session `"a"`. -/
def attachedClient : ClientSt :=
  { state := ClientState.ATTACHED, attachedSession := some ['a'],
    attachedTarget := none }

/-- An environment with an empty store. -/
def emptyEnv : ClientEnv :=
  { store := fun _ => none, tmuxAttachRes := fun _ => none,
    tmuxListOk := true, createRes := none }

/-- An environment whose store holds one exited session `"b"`. -/
def exitedEnv : ClientEnv :=
  { store := fun t =>
      if t = ['b'] then
        some { sess := { cols := 80, rows := 24, exited := true, exitCode := 0 },
               buffered := [] }
      else none,
    tmuxAttachRes := fun _ => none, tmuxListOk := true, createRes := none }

/-- The text before the token in an `Authorization` header. -/
def bearerHeaderLead : Str := ['B', 'e', 'a', 'r', 'e', 'r', ' ']

/-- The `Authorization` header fallback of `extractToken`: a header that
starts with the bearer lead yields the rest of the header. -/
def bearerToken (authHeader : Option Str) : Option Str :=
  match authHeader with
  | some h => if listStartsWith h bearerHeaderLead then some (h.drop 7) else none
  | none => none

/-- `extractToken(req)`: the `token` query parameter when it is truthy
(present and non-empty), else the `Authorization` header fallback. -/
def extractToken (queryToken authHeader : Option Str) : Option Str :=
  match queryToken with
  | some q => if q ≠ [] then some q else bearerToken authHeader
  | none => bearerToken authHeader

/-- `crypto.timingSafeEqual` on equal-length buffers: accumulate the
byte comparison across every position, so the work done is independent
of where the first mismatch lies; the result is whether all bytes
agreed. -/
def timingSafeEqual (a b : Str) : Bool :=
  (a.zip b).all fun p => p.1 == p.2

/-- `constantTimeCompare(a, b)`: a length mismatch fails (after a dummy
self-compare, whose result is discarded, to equalize timing); equal
lengths compare contents. -/
def constantTimeCompare (a b : Str) : Bool :=
  if a.length ≠ b.length then false
  else timingSafeEqual a b

/-- Outcome of the `upgrade` listener for one request. -/
inductive UpgradeResult where
  | handToManager
  | reject401
  deriving DecidableEq

/-- The `upgrade` listener's gate: a missing or empty token, or a failed
compare, writes `401 Unauthorized` and destroys the socket — no
`ClientSession` is constructed; otherwise the socket is handed to the
`SessionManager`. -/
def upgradeGate (authToken : Str) (queryToken authHeader : Option Str) :
    UpgradeResult :=
  match extractToken queryToken authHeader with
  | none => UpgradeResult.reject401
  | some t =>
    if t = [] then UpgradeResult.reject401
    else if constantTimeCompare t authToken then UpgradeResult.handToManager
    else UpgradeResult.reject401

/-- A concrete configured token. -/
def token₀ : Str := ['s', '3', 'c', 'r', '3', 't']

/-- One path segment. -/
abbrev Seg := List Char

/-- Split a path string on `/`. -/
def splitSegsAux : Str → Str → List Seg
  | acc, [] => [acc.reverse]
  | acc, c :: rest =>
    if c = '/' then acc.reverse :: splitSegsAux [] rest
    else splitSegsAux (c :: acc) rest

/-- Split a path string on `/`. -/
def splitSegs (s : Str) : List Seg := splitSegsAux [] s

/-- POSIX path normalization over segments: drop empty and `.` segments
and let `..` pop the previous segment (or vanish at the root of an
absolute path). -/
def normSegs (segs : List Seg) : List Seg :=
  segs.foldl
    (fun stack seg =>
      if seg = [] ∨ seg = ['.'] then stack
      else if seg = ['.', '.'] then stack.dropLast
      else stack ++ [seg])
    []

/-- `path.resolve(webRoot, filePath)` (followed by `normalize`, which is
the identity on an already-resolved path): an absolute `filePath` stands
alone, a relative one is resolved against the absolute, already
normalized web root. -/
def resolvePath (webRoot : List Seg) (filePath : Str) : List Seg :=
  match filePath with
  | '/' :: _ => normSegs (splitSegs filePath)
  | _ => normSegs (webRoot ++ splitSegs filePath)

/-- Render an absolute path from its segments. -/
def renderPath : List Seg → Str
  | [] => ['/']
  | segs => segs.foldl (fun acc seg => acc ++ '/' :: seg) []

/-- What `serveFile` did when it handled a request. -/
inductive ServeOutcome where
  | forbidden
  | ok (path : List Seg)
  deriving DecidableEq

/-- `serveFile(res, filePath)`: resolve the requested file against the
web root; when the rendered resolved path fails
`resolved.startsWith(webRoot)` answer 403, when the file is missing fall
through (`none`), otherwise serve the file at the resolved path. -/
def serveFile (fsExists : List Seg → Bool) (webRoot : List Seg)
    (filePath : Str) : Option ServeOutcome :=
  let resolved := resolvePath webRoot filePath
  if listStartsWith (renderPath resolved) (renderPath webRoot) = false then
    some ServeOutcome.forbidden
  else if fsExists resolved = false then none
  else some (ServeOutcome.ok resolved)

/-- A concrete web root `/srv/web`. -/
def webRoot₀ : List Seg := [['s', 'r', 'v'], ['w', 'e', 'b']]

/-- A concrete file `/srv/webx/a` in a sibling directory of the web
root. -/
def escapedFile₀ : List Seg := [['s', 'r', 'v'], ['w', 'e', 'b', 'x'], ['a']]

/-- A filesystem containing exactly `/srv/webx/a`. -/
def fsExists₀ (p : List Seg) : Bool := p == escapedFile₀

/-- The request path `../webx/a`, as handed to `serveFile` after URL
parsing, `decodeURIComponent` and the leading-slash strip (reachable
e.g. as `GET /%2e%2e%2Fwebx%2Fa`). -/
def relPath₀ : Str := ['.', '.', '/', 'w', 'e', 'b', 'x', '/', 'a']

end TerminalSync

namespace TerminalSync

theorem sumBytes_append (a b : List Str) :
    sumBytes (a ++ b) = sumBytes a + sumBytes b := by
  induction a with
  | nil => simp [sumBytes]
  | cons c rest ih => simp [sumBytes, ih]; omega

theorem evictLoop_spec (maxB : Nat) :
    ∀ (ring : List Str) (bytes : Nat), bytes = sumBytes ring →
      (evictLoop ring bytes maxB).2 = sumBytes (evictLoop ring bytes maxB).1 ∧
      (evictLoop ring bytes maxB).1 <:+ ring ∧
      ((evictLoop ring bytes maxB).1 = [] → ring = []) ∧
      (sumBytes (evictLoop ring bytes maxB).1 ≤ maxB ∨
        (evictLoop ring bytes maxB).1.length = 1) := by
  intro ring
  induction ring with
  | nil =>
    intro bytes h
    simp [evictLoop, sumBytes] at *
    omega
  | cons c rest ih =>
    intro bytes h
    by_cases hcond : bytes > maxB ∧ rest ≠ []
    · have hstep : evictLoop (c :: rest) bytes maxB
          = evictLoop rest (bytes - byteLength c) maxB := by
        simp [evictLoop, hcond]
      have hb : bytes - byteLength c = sumBytes rest := by
        simp [sumBytes] at h; omega
      obtain ⟨h1, h2, h3, h4⟩ := ih (bytes - byteLength c) hb
      refine ⟨by rw [hstep]; exact h1, ?_, ?_, by rw [hstep]; exact h4⟩
      · rw [hstep]
        exact h2.trans (List.suffix_cons c rest)
      · intro hnil
        rw [hstep] at hnil
        exact absurd (h3 hnil) hcond.2
    · have hstep : evictLoop (c :: rest) bytes maxB = (c :: rest, bytes) := by
        simp only [evictLoop, if_neg hcond]
      rw [hstep]
      refine ⟨h, List.suffix_refl _, by simp, ?_⟩
      rcases not_and_or.mp hcond with hle | hrest
      · left
        show sumBytes (c :: rest) ≤ maxB
        omega
      · right
        have : rest = [] := by
          by_contra hc; exact hrest hc
        simp [this]

theorem pushToBuffer_spec (st : RingState) (d : Str) (h : RingInv st) :
    RingInv (pushToBuffer st d) ∧
    (pushToBuffer st d).maxBufferBytes = st.maxBufferBytes ∧
    (pushToBuffer st d).ringBuffer <:+ st.ringBuffer ++ [d] ∧
    (pushToBuffer st d).ringBuffer ≠ [] := by
  obtain ⟨hbytes, _⟩ := h
  have hsum : st.ringBufferBytes + byteLength d
      = sumBytes (st.ringBuffer ++ [d]) := by
    rw [sumBytes_append, hbytes]; simp [sumBytes]
  obtain ⟨h1, h2, h3, h4⟩ :=
    evictLoop_spec st.maxBufferBytes (st.ringBuffer ++ [d])
      (st.ringBufferBytes + byteLength d) hsum
  refine ⟨⟨h1, h4⟩, rfl, h2, ?_⟩
  intro hnil
  have := h3 hnil
  simp at this

theorem foldl_pushToBuffer_spec (ds : List Str) :
    ∀ (st : RingState), RingInv st →
      RingInv (ds.foldl pushToBuffer st) ∧
      (ds.foldl pushToBuffer st).maxBufferBytes = st.maxBufferBytes ∧
      (ds.foldl pushToBuffer st).ringBuffer <:+ st.ringBuffer ++ ds := by
  induction ds with
  | nil =>
    intro st h
    exact ⟨h, rfl, by simp⟩
  | cons d rest ih =>
    intro st h
    obtain ⟨hinv, hmax, hsuf, _⟩ := pushToBuffer_spec st d h
    obtain ⟨ih1, ih2, ih3⟩ := ih (pushToBuffer st d) hinv
    refine ⟨ih1, by rw [List.foldl_cons, ih2, hmax], ?_⟩
    rw [List.foldl_cons]
    refine ih3.trans ?_
    obtain ⟨p, hp⟩ := hsuf
    refine ⟨p, ?_⟩
    rw [← List.append_assoc, hp, List.append_assoc]
    simp

/-- Claim C2: after any sequence of PTY chunks is appended to the ring
buffer (starting from a fresh session), the total byte length of the
retained chunks is at most `maxBufferBytes` or the ring holds exactly one
chunk; the retained ring is a contiguous suffix of the appended chunks
(eviction drops whole chunks from the head only), and `getBufferedOutput`
returns the concatenation of that suffix. -/
theorem claim_C2 (maxB : Nat) (ds : List Str) :
    (sumBytes (ds.foldl pushToBuffer (initRing maxB)).ringBuffer ≤ maxB ∨
      (ds.foldl pushToBuffer (initRing maxB)).ringBuffer.length = 1) ∧
    (ds.foldl pushToBuffer (initRing maxB)).ringBuffer <:+ ds ∧
    getBufferedOutput (ds.foldl pushToBuffer (initRing maxB))
      = (ds.foldl pushToBuffer (initRing maxB)).ringBuffer.flatten := by
  have hinit : RingInv (initRing maxB) := by
    constructor <;> simp [initRing, sumBytes]
  obtain ⟨⟨_, hcap⟩, hmax, hsuf⟩ := foldl_pushToBuffer_spec ds (initRing maxB) hinit
  refine ⟨?_, ?_, rfl⟩
  · rw [hmax] at hcap
    simpa [initRing] using hcap
  · simpa [initRing] using hsuf

/-- Counterexample to claim C1 as stated: on a session that has exited,
`resize(100, 50)` still changes the stored `(cols, rows)` and still emits
a `resize` signal — the guard in the source only skips the PTY call. -/
theorem claim_C1_counterexample :
    exSession₀.exited = true ∧
    (ManagedSession.resize exSession₀ 100 50).1.cols ≠ exSession₀.cols ∧
    (ManagedSession.resize exSession₀ 100 50).1.rows ≠ exSession₀.rows ∧
    emitsResizeSignal (ManagedSession.resize exSession₀ 100 50).2 = true := by
  decide

/-- Claim C1 (amended): after the child has exited, `write(data)` does not
raise and has no effect, `hasExited()` is true and `getStatus()` is
`"exited"`; `resize(cols, rows)` does not raise and never touches the PTY,
but it still updates `(cols, rows)` and emits a `resize` signal whenever
both dimensions are positive and differ from the current size. -/
theorem claim_C1 (st : SessionState) (data : Str) (c r : Int)
    (h : st.exited = true) :
    ManagedSession.write st data = (st, []) ∧
    ManagedSession.hasExited st = true ∧
    ManagedSession.getStatus st = "exited" ∧
    (ManagedSession.resize st c r).1.exited = true ∧
    (∀ c' r', SessionEffect.ptyResize c' r' ∉ (ManagedSession.resize st c r).2) ∧
    (if 0 < c ∧ 0 < r ∧ ¬(c = st.cols ∧ r = st.rows)
      then ManagedSession.resize st c r
        = ({ st with cols := c, rows := r }, [SessionEffect.emitResize c r])
      else ManagedSession.resize st c r = (st, [])) := by
  refine ⟨by simp [ManagedSession.write, h], by simp [ManagedSession.hasExited, h],
    by simp [ManagedSession.getStatus, h], ?_, ?_, ?_⟩
  · unfold ManagedSession.resize
    split
    · simpa using h
    · split
      · simpa using h
      · simp [h]
  · intro c' r'
    unfold ManagedSession.resize
    split
    · simp
    · split
      · simp
      · simp [h]
  · by_cases hC : 0 < c ∧ 0 < r ∧ ¬(c = st.cols ∧ r = st.rows)
    · rw [if_pos hC]
      unfold ManagedSession.resize
      rw [if_neg (by rcases hC with ⟨hc, hr, _⟩; omega), if_neg hC.2.2]
      simp [h]
    · rw [if_neg hC]
      unfold ManagedSession.resize
      by_cases h1 : c ≤ 0 ∨ r ≤ 0
      · rw [if_pos h1]
      · rw [if_neg h1]
        have h2 : c = st.cols ∧ r = st.rows := by
          rw [not_or] at h1
          by_contra hk
          exact hC ⟨by omega, by omega, hk⟩
        rw [if_pos h2]

/-- Witness for claim C1 at a concrete exited session. -/
theorem claim_C1_witness :
    exSession₀.exited = true ∧
    (ManagedSession.write exSession₀ ['x'] = (exSession₀, []) ∧
      ManagedSession.hasExited exSession₀ = true ∧
      ManagedSession.getStatus exSession₀ = "exited" ∧
      (ManagedSession.resize exSession₀ 100 50).1.exited = true ∧
      (∀ c' r',
        SessionEffect.ptyResize c' r' ∉ (ManagedSession.resize exSession₀ 100 50).2) ∧
      (if 0 < (100 : Int) ∧ 0 < (50 : Int) ∧
          ¬((100 : Int) = exSession₀.cols ∧ (50 : Int) = exSession₀.rows)
        then ManagedSession.resize exSession₀ 100 50
          = ({ exSession₀ with cols := 100, rows := 50 },
              [SessionEffect.emitResize 100 50])
        else ManagedSession.resize exSession₀ 100 50 = (exSession₀, []))) :=
  ⟨rfl, claim_C1 exSession₀ ['x'] 100 50 rfl⟩

/-- Claim C7: in every session state, exited or not, `resize(c, r)` emits
a `resize` signal exactly when both dimensions are positive and `(c, r)`
differs from the current `(cols, rows)`. -/
theorem claim_C7 (st : SessionState) (c r : Int) :
    emitsResizeSignal (ManagedSession.resize st c r).2 = true ↔
      (0 < c ∧ 0 < r ∧ ¬(c = st.cols ∧ r = st.rows)) := by
  unfold ManagedSession.resize
  by_cases h1 : c ≤ 0 ∨ r ≤ 0
  · rw [if_pos h1]
    simp only [emitsResizeSignal, List.any_nil, Bool.false_eq_true, false_iff]
    intro ⟨hc, hr, _⟩
    rcases h1 with h1 | h1 <;> omega
  · rw [if_neg h1]
    by_cases h2 : c = st.cols ∧ r = st.rows
    · rw [if_pos h2]
      simp only [emitsResizeSignal, List.any_nil, Bool.false_eq_true, false_iff]
      intro ⟨_, _, hne⟩
      exact hne h2
    · rw [if_neg h2]
      have hpos : 0 < c ∧ 0 < r := by
        rw [not_or] at h1
        omega
      by_cases h3 : st.exited <;>
        simp [h3, emitsResizeSignal, hpos, h2]

theorem scanTitleBody_complete (t : Str) (hok : titleBodyOk t) :
    ∀ (acc rest : Str),
      scanTitleBody acc (t ++ '\x07' :: rest) = some (acc.reverse ++ t) := by
  induction t with
  | nil =>
    intro acc rest
    simp [scanTitleBody]
  | cons c cs ih =>
    intro acc rest
    obtain ⟨hbel, hesc⟩ := hok c (by simp)
    have hok' : titleBodyOk cs := fun x hx => hok x (by simp [hx])
    calc scanTitleBody acc ((c :: cs) ++ '\x07' :: rest)
        = scanTitleBody (c :: acc) (cs ++ '\x07' :: rest) := by
          simp [scanTitleBody, hbel, hesc]
      _ = some ((c :: acc).reverse ++ cs) := ih hok' (c :: acc) rest
      _ = some (acc.reverse ++ (c :: cs)) := by simp

/-- Claim C10: the OSC title scan is per-chunk. (1) If neither of two
consecutive chunks contains a complete title sequence (even when their
concatenation does), neither chunk changes the name or emits a `title`
signal. (2) Within one chunk, the first complete sequence wins: a chunk
formed of two complete sequences yields the first one's title. (3) An
extracted title equal to the current name emits nothing. -/
theorem claim_C10 :
    (∀ (name c₁ c₂ : Str), extractTitle c₁ = none → extractTitle c₂ = none →
      applyTitle name c₁ = (name, false) ∧ applyTitle name c₂ = (name, false)) ∧
    (∀ (code₁ code₂ : Char) (t₁ t₂ tail : Str),
      (code₁ = '0' ∨ code₁ = '2') →
      titleBodyOk t₁ →
      extractTitle (oscTitle code₁ t₁ ++ (oscTitle code₂ t₂ ++ tail)) = some t₁) ∧
    (∀ (name chunk : Str), extractTitle chunk = some name →
      applyTitle name chunk = (name, false)) := by
  refine ⟨?_, ?_, ?_⟩
  · intro name c₁ c₂ h1 h2
    exact ⟨by simp [applyTitle, h1], by simp [applyTitle, h2]⟩
  · intro code₁ code₂ t₁ t₂ tail hcode hok
    have hmatch :
        matchTitleAt (oscTitle code₁ t₁ ++ (oscTitle code₂ t₂ ++ tail))
          = some t₁ := by
      show matchTitleAt
          ('\x1b' :: ']' :: code₁ :: ';' ::
            ((t₁ ++ ['\x07']) ++ (oscTitle code₂ t₂ ++ tail))) = some t₁
      rw [List.append_assoc]
      simp only [matchTitleAt, if_pos hcode, List.singleton_append]
      have := scanTitleBody_complete t₁ hok [] (oscTitle code₂ t₂ ++ tail)
      simpa using this
    have hne : oscTitle code₁ t₁ ++ (oscTitle code₂ t₂ ++ tail)
        = '\x1b' :: (']' :: code₁ :: ';' ::
            ((t₁ ++ ['\x07']) ++ (oscTitle code₂ t₂ ++ tail))) := by
      simp [oscTitle]
    rw [hne] at hmatch ⊢
    simp only [extractTitle, hmatch]
  · intro name chunk h
    simp [applyTitle, h]

theorem markExited_runningCount (id : Str) (code : Int) :
    ∀ (l : List (Str × SessionState)) (s : SessionState),
      lookupSession id l = some s → s.exited = false →
      ((markExited id code l).filter fun p => !p.2.exited).length + 1
        = (l.filter fun p => !p.2.exited).length := by
  intro l
  induction l with
  | nil =>
    intro s h _
    simp [lookupSession] at h
  | cons p rest ih =>
    intro s h hex
    by_cases hp : p.1 = id
    · rw [lookupSession, if_pos hp] at h
      have hs : p.2 = s := by injection h
      rw [markExited, if_pos hp]
      rw [List.filter_cons, List.filter_cons]
      have hpe : (!p.2.exited) = true := by
        rw [hs, hex]; rfl
      have hme : (!(ManagedSession.onExitUpdate p.2 code).exited) = false := rfl
      rw [hpe, hme]
      simp
    · rw [lookupSession, if_neg hp] at h
      rw [markExited, if_neg hp]
      rw [List.filter_cons, List.filter_cons]
      by_cases hpe : p.2.exited
      · simp only [hpe, Bool.not_true, Bool.false_eq_true, if_false]
        exact ih s h hex
      · have : p.2.exited = false := by
          by_contra hc
          exact hpe (by revert hc; cases p.2.exited <;> simp)
        simp only [this, Bool.not_false, if_true, List.length_cons]
        have := ih s h hex
        omega

/-- Claim C3: the store emits `idle` exactly on a natural child exit that
takes the running count from 1 to 0: delivery of a PTY `exit` for a
still-running stored session emits `idle` iff the running count was 1;
`create` emits only `active`; `remove` and `shutdown` never emit
anything — in particular never `idle`, even when they remove the last
running session. -/
theorem claim_C3 :
    (∀ (st : StoreState) (id : Str) (code : Int),
      StoreEvent.idle ∈ (ManagedSessionStore.childExit st id code).2 ↔
        ((∃ s, lookupSession id st.sessions = some s ∧ s.exited = false) ∧
          getRunningCount st = 1)) ∧
    (∀ (st : StoreState) (id : Str) (s : SessionState),
      (ManagedSessionStore.create st id s).2 = [StoreEvent.active]) ∧
    (∀ (st : StoreState) (id : Str),
      (ManagedSessionStore.remove st id).2.2 = []) ∧
    (∀ (st : StoreState), (ManagedSessionStore.shutdown st).2 = []) := by
  refine ⟨?_, fun _ _ _ => rfl, ?_, fun _ => rfl⟩
  case refine_2 =>
    intro st id
    unfold ManagedSessionStore.remove
    cases lookupSession id st.sessions <;> rfl
  case refine_1 =>
    intro st id code
    unfold ManagedSessionStore.childExit
    cases hl : lookupSession id st.sessions with
    | none => simp
    | some s =>
      by_cases hex : s.exited
      · simp [hex]
      · have hexf : s.exited = false := by
          revert hex; cases s.exited <;> simp
        have hcount := markExited_runningCount id code st.sessions s hl hexf
        have hc2 : getRunningCount { sessions := markExited id code st.sessions } + 1
            = getRunningCount st := by
          unfold getRunningCount
          simpa using hcount
        simp only [if_neg hex]
        by_cases hz :
            getRunningCount { sessions := markExited id code st.sessions } = 0
        · rw [if_pos hz]
          constructor
          · intro _
            exact ⟨⟨s, rfl, hexf⟩, by omega⟩
          · intro _
            simp
        · rw [if_neg hz]
          simp only [List.not_mem_nil, false_iff]
          rintro ⟨_, hone⟩
          omega

/-- Claim C8 fails on the code: no operation of the store ever emits
`session_removed`. At the concrete one-session store, `remove("a")`
deletes the session and emits nothing, `shutdown()` empties the store and
emits nothing, and a natural exit emits only `idle` — so a session leaves
the store with no `session_removed` signal, and the server consequently
never pushes one. -/
theorem claim_C8_counterexample :
    (ManagedSessionStore.remove storeOne ['a']).2.1 = true ∧
    lookupSession ['a'] (ManagedSessionStore.remove storeOne ['a']).1.sessions
      = none ∧
    (ManagedSessionStore.remove storeOne ['a']).2.2 = [] ∧
    (ManagedSessionStore.shutdown storeOne).1.sessions = [] ∧
    (ManagedSessionStore.shutdown storeOne).2 = [] ∧
    (ManagedSessionStore.childExit storeOne ['a'] 0).2 = [StoreEvent.idle] := by
  decide

/-- Witness for claim C10: a title sequence split between two chunks is
never seen; two complete sequences in one chunk yield the first title;
an unchanged title emits nothing. -/
theorem claim_C10_witness :
    (applyTitle ['o', 'l', 'd'] ['\x1b', ']', '0', ';', 'h', 'i']
        = (['o', 'l', 'd'], false) ∧
      applyTitle ['o', 'l', 'd'] ['h', 'i', '\x07'] = (['o', 'l', 'd'], false)) ∧
    extractTitle (oscTitle '0' ['a'] ++ (oscTitle '2' ['b'] ++ ['z']))
      = some ['a'] ∧
    applyTitle ['a'] (oscTitle '2' ['a']) = (['a'], false) :=
  ⟨claim_C10.1 ['o', 'l', 'd'] ['\x1b', ']', '0', ';', 'h', 'i'] ['h', 'i', '\x07']
      (by decide) (by decide),
    claim_C10.2.1 '0' '2' ['a'] ['b'] ['z'] (Or.inl rfl) (by decide),
    claim_C10.2.2 ['a'] (oscTitle '2' ['a']) (by decide)⟩

/-- Claim C4: every error reply leaves the client record — its
BROWSING/ATTACHED state and its attached-session reference — unchanged:
an unparseable frame (`PARSE_ERROR`, `seq = 0`), attaching to an unknown
managed target (`SESSION_NOT_FOUND`), attaching to an exited session
(`SESSION_EXITED`), attaching while ATTACHED (`ALREADY_ATTACHED`), and
`input`/`resize`/`detach` while BROWSING (`NOT_ATTACHED`). -/
theorem claim_C4 (env : ClientEnv) :
    (∀ cl, ClientSession.handleFrame env cl Frame.unparseable
      = (cl, [ServerOut.errorMsg 0 ErrCode.PARSE_ERROR])) ∧
    (∀ (cl : ClientSt) (seq : Int) (target : Str) (cols rows : Int),
      cl.state = ClientState.BROWSING →
      listStartsWith target tmuxNamespace = false →
      env.store target = none →
      ClientSession.handleFrame env cl
          (Frame.msg (ClientMessage.attach seq target cols rows))
        = (cl, [ServerOut.errorMsg seq ErrCode.SESSION_NOT_FOUND])) ∧
    (∀ (cl : ClientSt) (seq : Int) (target : Str) (cols rows : Int)
        (sv : SessionView),
      cl.state = ClientState.BROWSING →
      listStartsWith target tmuxNamespace = false →
      env.store target = some sv →
      sv.sess.exited = true →
      ClientSession.handleFrame env cl
          (Frame.msg (ClientMessage.attach seq target cols rows))
        = (cl, [ServerOut.errorMsg seq ErrCode.SESSION_EXITED])) ∧
    (∀ (cl : ClientSt) (seq : Int) (target : Str) (cols rows : Int),
      cl.state = ClientState.ATTACHED →
      ClientSession.handleFrame env cl
          (Frame.msg (ClientMessage.attach seq target cols rows))
        = (cl, [ServerOut.errorMsg seq ErrCode.ALREADY_ATTACHED])) ∧
    (∀ (cl : ClientSt) (seq : Int) (data : Str) (cols rows : Int),
      cl.state = ClientState.BROWSING →
      ClientSession.handleFrame env cl
          (Frame.msg (ClientMessage.input seq data))
        = (cl, [ServerOut.errorMsg seq ErrCode.NOT_ATTACHED]) ∧
      ClientSession.handleFrame env cl
          (Frame.msg (ClientMessage.resize seq cols rows))
        = (cl, [ServerOut.errorMsg seq ErrCode.NOT_ATTACHED]) ∧
      ClientSession.handleFrame env cl
          (Frame.msg (ClientMessage.detach seq))
        = (cl, [ServerOut.errorMsg seq ErrCode.NOT_ATTACHED])) := by
  refine ⟨fun _ => rfl, ?_, ?_, ?_, ?_⟩
  · intro cl seq target cols rows hstate htmux hstore
    simp [ClientSession.handleFrame, ClientSession.handleMessage,
      ClientSession.handleAttach, hstate, htmux, hstore]
  · intro cl seq target cols rows sv hstate htmux hstore hex
    simp [ClientSession.handleFrame, ClientSession.handleMessage,
      ClientSession.handleAttach, hstate, htmux, hstore, hex]
  · intro cl seq target cols rows hstate
    simp [ClientSession.handleFrame, ClientSession.handleMessage,
      ClientSession.handleAttach, hstate]
  · intro cl seq data cols rows hstate
    refine ⟨?_, ?_, ?_⟩ <;>
      simp [ClientSession.handleFrame, ClientSession.handleMessage,
        ClientSession.handleInput, ClientSession.handleResize,
        ClientSession.handleDetach, hstate]

/-- Witness for claim C4 at concrete clients, stores and frames. -/
theorem claim_C4_witness :
    ClientSession.handleFrame emptyEnv browsingClient Frame.unparseable
      = (browsingClient, [ServerOut.errorMsg 0 ErrCode.PARSE_ERROR]) ∧
    ClientSession.handleFrame emptyEnv browsingClient
        (Frame.msg (ClientMessage.attach 1 ['b'] 80 24))
      = (browsingClient, [ServerOut.errorMsg 1 ErrCode.SESSION_NOT_FOUND]) ∧
    ClientSession.handleFrame exitedEnv browsingClient
        (Frame.msg (ClientMessage.attach 2 ['b'] 80 24))
      = (browsingClient, [ServerOut.errorMsg 2 ErrCode.SESSION_EXITED]) ∧
    ClientSession.handleFrame emptyEnv attachedClient
        (Frame.msg (ClientMessage.attach 3 ['b'] 80 24))
      = (attachedClient, [ServerOut.errorMsg 3 ErrCode.ALREADY_ATTACHED]) ∧
    (ClientSession.handleFrame emptyEnv browsingClient
        (Frame.msg (ClientMessage.input 4 ['x']))
      = (browsingClient, [ServerOut.errorMsg 4 ErrCode.NOT_ATTACHED]) ∧
    ClientSession.handleFrame emptyEnv browsingClient
        (Frame.msg (ClientMessage.resize 5 100 50))
      = (browsingClient, [ServerOut.errorMsg 5 ErrCode.NOT_ATTACHED]) ∧
    ClientSession.handleFrame emptyEnv browsingClient
        (Frame.msg (ClientMessage.detach 6))
      = (browsingClient, [ServerOut.errorMsg 6 ErrCode.NOT_ATTACHED])) :=
  ⟨(claim_C4 emptyEnv).1 browsingClient,
    (claim_C4 emptyEnv).2.1 browsingClient 1 ['b'] 80 24 rfl (by decide) rfl,
    (claim_C4 exitedEnv).2.2.1 browsingClient 2 ['b'] 80 24
      { sess := { cols := 80, rows := 24, exited := true, exitCode := 0 },
        buffered := [] }
      rfl (by decide) (by decide) rfl,
    (claim_C4 emptyEnv).2.2.2.1 attachedClient 3 ['b'] 80 24 rfl,
    (claim_C4 emptyEnv).2.2.2.2 browsingClient 4 ['x'] 100 50 rfl |>.1,
    ((claim_C4 emptyEnv).2.2.2.2 browsingClient 5 ['x'] 100 50 rfl).2.1,
    ((claim_C4 emptyEnv).2.2.2.2 browsingClient 6 ['x'] 100 50 rfl).2.2⟩

theorem listStartsWith_iff {α : Type} [DecidableEq α] :
    ∀ (p s : List α), listStartsWith s p = true ↔ ∃ t, p ++ t = s := by
  intro p
  induction p with
  | nil =>
    intro s
    constructor
    · intro _
      exact ⟨s, rfl⟩
    · intro _
      cases s <;> rfl
  | cons b bs ih =>
    intro s
    cases s with
    | nil => simp [listStartsWith]
    | cons a as =>
      simp only [listStartsWith]
      by_cases hab : a = b
      · rw [if_pos hab, ih as]
        subst hab
        constructor
        · rintro ⟨t, ht⟩
          exact ⟨t, by rw [List.cons_append, ht]⟩
        · rintro ⟨t, ht⟩
          rw [List.cons_append] at ht
          injection ht with _ h2
          exact ⟨t, h2⟩
      · rw [if_neg hab]
        simp only [Bool.false_eq_true, false_iff]
        rintro ⟨t, ht⟩
        rw [List.cons_append] at ht
        injection ht with h1 _
        exact hab h1.symm

theorem timingSafeEqual_iff :
    ∀ (a b : Str), a.length = b.length →
      (timingSafeEqual a b = true ↔ a = b) := by
  intro a
  induction a with
  | nil =>
    intro b h
    cases b with
    | nil => simp [timingSafeEqual]
    | cons _ _ => simp at h
  | cons x xs ih =>
    intro b h
    cases b with
    | nil => simp at h
    | cons y ys =>
      simp only [List.length_cons] at h
      have h' : xs.length = ys.length := by omega
      rw [show timingSafeEqual (x :: xs) (y :: ys)
          = ((x == y) && timingSafeEqual xs ys) from rfl]
      rw [Bool.and_eq_true, beq_iff_eq, ih ys h']
      constructor
      · rintro ⟨h1, h2⟩
        rw [h1, h2]
      · intro he
        injection he with h1 h2
        exact ⟨h1, h2⟩

theorem constantTimeCompare_iff (a b : Str) :
    constantTimeCompare a b = true ↔ a = b := by
  unfold constantTimeCompare
  by_cases h : a.length ≠ b.length
  · rw [if_pos h]
    simp only [Bool.false_eq_true, false_iff]
    intro he
    exact h (by rw [he])
  · rw [if_neg h]
    push_neg at h
    exact timingSafeEqual_iff a b h

/-- Claim C5: with the configured token non-empty (the server refuses to
start without one), an upgrade request is handed to the `SessionManager`
iff the extracted token equals the configured token byte for byte;
otherwise the gateway answers `401 Unauthorized`, destroys the socket,
and no `ClientSession` is created. The length guard and positionwise
accumulation of `constantTimeCompare` are captured functionally by
`constantTimeCompare_iff`. -/
theorem claim_C5 (authToken : Str) (queryToken authHeader : Option Str)
    (h : authToken ≠ []) :
    (upgradeGate authToken queryToken authHeader = UpgradeResult.handToManager ↔
      extractToken queryToken authHeader = some authToken) ∧
    (upgradeGate authToken queryToken authHeader = UpgradeResult.reject401 ↔
      extractToken queryToken authHeader ≠ some authToken) := by
  have main : upgradeGate authToken queryToken authHeader
      = UpgradeResult.handToManager ↔
      extractToken queryToken authHeader = some authToken := by
    unfold upgradeGate
    cases hx : extractToken queryToken authHeader with
    | none => simp
    | some t =>
      dsimp only
      by_cases ht : t = []
      · rw [if_pos ht]
        subst ht
        constructor
        · intro hc
          simp at hc
        · intro hc
          injection hc with hc
          exact absurd hc.symm h
      · rw [if_neg ht]
        by_cases hc : constantTimeCompare t authToken = true
        · rw [if_pos hc]
          have := (constantTimeCompare_iff t authToken).mp hc
          simp [this]
        · rw [if_neg hc]
          constructor
          · intro hr
            simp at hr
          · intro hsome
            injection hsome with hsome
            exact absurd ((constantTimeCompare_iff t authToken).mpr hsome) hc
  refine ⟨main, ?_⟩
  constructor
  · intro hr hsome
    rw [main.mpr hsome] at hr
    simp at hr
  · intro hne
    cases hg : upgradeGate authToken queryToken authHeader with
    | handToManager => exact absurd (main.mp hg) hne
    | reject401 => rfl

/-- Witness for claim C5: the matching token is accepted, a mismatched
one is rejected. -/
theorem claim_C5_witness :
    token₀ ≠ [] ∧
    upgradeGate token₀ (some token₀) none = UpgradeResult.handToManager ∧
    upgradeGate token₀ (some ['x']) none = UpgradeResult.reject401 :=
  ⟨by decide,
    (claim_C5 token₀ (some token₀) none (by decide)).1.mpr (by decide),
    (claim_C5 token₀ (some ['x']) none (by decide)).2.mpr (by decide)⟩

/-- Claim C9: a non-empty `token` query parameter wins over any
`Authorization` header, so a request carrying the correct Bearer token
but a wrong query token is rejected with 401; an empty `token` parameter
is treated as absent and the header fallback is used. -/
theorem claim_C9 :
    (∀ (q : Str) (authHeader : Option Str), q ≠ [] →
      extractToken (some q) authHeader = some q) ∧
    (∀ (authToken q : Str) (authHeader : Option Str), q ≠ [] → q ≠ authToken →
      upgradeGate authToken (some q) authHeader = UpgradeResult.reject401) ∧
    (∀ (authHeader : Option Str),
      extractToken (some []) authHeader = bearerToken authHeader) := by
  refine ⟨?_, ?_, ?_⟩
  · intro q ah hq
    simp [extractToken, hq]
  · intro tok q ah hq hne
    unfold upgradeGate
    rw [show extractToken (some q) ah = some q from by simp [extractToken, hq]]
    dsimp only
    rw [if_neg hq]
    by_cases hc : constantTimeCompare q tok = true
    · exact absurd ((constantTimeCompare_iff q tok).mp hc) hne
    · simp [hc]
  · intro ah
    simp [extractToken]

/-- Witness for claim C9: with the correct token in the Bearer header but
a wrong query token, the query value is the one extracted and the
request is rejected; the empty query parameter falls back to the
header. -/
theorem claim_C9_witness :
    extractToken (some ['a']) (some (bearerHeaderLead ++ token₀)) = some ['a'] ∧
    upgradeGate token₀ (some ['a']) (some (bearerHeaderLead ++ token₀))
      = UpgradeResult.reject401 ∧
    extractToken (some []) (some (bearerHeaderLead ++ token₀))
      = bearerToken (some (bearerHeaderLead ++ token₀)) :=
  ⟨claim_C9.1 ['a'] (some (bearerHeaderLead ++ token₀)) (by decide),
    claim_C9.2.1 token₀ ['a'] (some (bearerHeaderLead ++ token₀))
      (by decide) (by decide),
    claim_C9.2.2 (some (bearerHeaderLead ++ token₀))⟩

/-- Claim C6 fails on the code: with web root `/srv/web`, the request
path `../webx/a` (reachable as `GET /%2e%2e%2Fwebx%2Fa`, which survives
WHATWG URL dot-segment removal and is decoded afterwards) resolves to
`/srv/webx/a`; the guard `resolved.startsWith(webRoot)` accepts it
because the sibling directory name extends the root as a string, and the
file — which does not lie inside the web root — is served with 200
instead of 403. -/
theorem claim_C6 :
    serveFile fsExists₀ webRoot₀ relPath₀ = some (ServeOutcome.ok escapedFile₀) ∧
    ¬ ∃ t, webRoot₀ ++ t = escapedFile₀ := by
  constructor
  · decide
  · intro hex
    have h := (listStartsWith_iff webRoot₀ escapedFile₀).mpr hex
    revert h
    decide

end TerminalSync
